import Mathlib

/-!
Shallow embedding of the USDT subgraph dashboard data pipeline:
the fetch and normalization functions of data_utils.py and the server
logic of app.py.

Tables are lists of rows.  A raw row carries the string values returned
by the GraphQL endpoint; a processed row carries typed values.  Missing
or non-coercible numeric values are represented by Option.none, which
models a pandas NaN cell.  Python operations that can raise are modelled
with Option results: Option.none means an exception was raised.
-/

/-- Numeric value of a list of decimal digit characters.  The empty list
gives 0; a non-digit character makes the whole parse fail. -/
def digitsVal (cs : List Char) : Option Nat :=
  cs.foldl
    (fun acc c =>
      match acc with
      | Option.none => Option.none
      | Option.some a =>
        if c.isDigit then Option.some (a * 10 + (c.toNat - 48)) else Option.none)
    (Option.some 0)

/-- Models int(...) applied to each entry of a string column by
astype(int) in process_daily_metrics and process_user_metrics: an
optional minus sign followed by digits; anything else raises, which the
model renders as Option.none. -/
def parseIntStr (s : String) : Option Int :=
  match s.data with
  | [] => Option.none
  | '-' :: cs =>
    if cs.isEmpty then Option.none
    else (digitsVal cs).map (fun n => -(n : Int))
  | cs => (digitsVal cs).map (fun n => (n : Int))

/-- Unsigned decimal literal: digits with at most one decimal point and
at least one digit overall, as accepted by pandas to_numeric. -/
def parseDecimal (cs : List Char) : Option Rat :=
  let intPart := cs.takeWhile (fun c => c != '.')
  match cs.dropWhile (fun c => c != '.') with
  | [] =>
    if intPart.isEmpty then Option.none
    else (digitsVal intPart).map (fun n => (n : Rat))
  | _ :: frac =>
    if frac.contains '.' then Option.none
    else if intPart.isEmpty && frac.isEmpty then Option.none
    else
      match digitsVal intPart, digitsVal frac with
      | Option.some i, Option.some f =>
        Option.some ((i : Rat) + (f : Rat) / ((10 : Rat) ^ frac.length))
      | _, _ => Option.none

/-- Models pd.to_numeric applied to one cell with errors set to coerce:
an optional sign followed by a decimal literal; a value that cannot be
parsed becomes Option.none (NaN), never an exception. -/
def parseNumeric (s : String) : Option Rat :=
  match s.data with
  | '-' :: cs => (parseDecimal cs).map (fun q => -q)
  | '+' :: cs => parseDecimal cs
  | cs => parseDecimal cs

/-- Models pd.to_datetime applied to the day-granular date string of a
user row, in ISO YYYY-MM-DD form, mapped to an integer key that is
monotone in calendar order.  An unparseable date raises, rendered as
Option.none. -/
def parseDate (s : String) : Option Int :=
  match s.data with
  | [y1, y2, y3, y4, '-', m1, m2, '-', d1, d2] =>
    if y1.isDigit && y2.isDigit && y3.isDigit && y4.isDigit &&
       m1.isDigit && m2.isDigit && d1.isDigit && d2.isDigit then
      let y := ((y1.toNat - 48) * 1000 + (y2.toNat - 48) * 100 +
                (y3.toNat - 48) * 10 + (y4.toNat - 48))
      let m := (m1.toNat - 48) * 10 + (m2.toNat - 48)
      let d := (d1.toNat - 48) * 10 + (d2.toNat - 48)
      if 1 ≤ m && m ≤ 12 && 1 ≤ d && d ≤ 31 then
        Option.some ((y : Int) * 10000 + (m : Int) * 100 + (d : Int))
      else Option.none
    else Option.none
  | _ => Option.none

/-- Declared numeric columns of the global daily metrics table, from the
numeric_cols list in process_daily_metrics. -/
def numericColsGlobal : List String :=
  ["activeAccounts", "averageTransferAmount", "blacklistedAccounts", "fee",
   "minTransferAmount", "maxTransferAmount", "newAccounts", "totalFees",
   "totalTransferValue", "totalTransfers", "transferCount", "uniqueReceivers",
   "uniqueSenders", "volume"]

/-- Declared numeric columns of the user daily metrics table, from the
numeric_cols list in process_user_metrics. -/
def numericColsUser : List String :=
  ["endDayBalance", "totalReceived", "totalTransferred", "transferCount",
   "averageTransferAmount", "distinctReceivers", "distinctSenders", "feesPaid",
   "maxTransferAmount", "receivedCount"]

/-- Raw global row as fetched: the timestamp string, the remaining
columns as an association list of string cells, and the two boolean
flags.  A column name absent from the list models a NaN cell in the
DataFrame built from the fetched records. -/
structure RawGlobalRow where
  timestamp : String
  num : List (String × String)
  hasFeeDecrease : Bool
  hasFeeIncrease : Bool
deriving DecidableEq

/-- Processed global row: integer instant, coerced numeric columns, and
boolean flags. -/
structure GlobalRow where
  timestamp : Int
  num : List (String × Option Rat)
  hasFeeDecrease : Bool
  hasFeeIncrease : Bool
deriving DecidableEq

/-- Raw user row as fetched, with the nested user object flattened into
its two string fields (address and balance) to which process_user_metrics
applies its extraction lambdas. -/
structure RawUserRow where
  timestamp : String
  date : String
  userAddress : String
  userBalance : String
  num : List (String × String)
deriving DecidableEq

/-- Processed user row: typed instants, flattened user fields, and
coerced numeric columns. -/
structure UserRow where
  timestamp : Int
  date : Int
  user_address : String
  user_balance : Rat
  num : List (String × Option Rat)
deriving DecidableEq

/-- Cell of a raw column by name; Option.none models a NaN cell for a
missing column. -/
def lookupRaw (fields : List (String × String)) (c : String) : Option String :=
  (fields.find? (fun p => p.1 == c)).map Prod.snd

/-- Coercion of one raw cell by pd.to_numeric with coerce: a missing
cell stays NaN, a present cell parses or becomes NaN. -/
def coerceField (fields : List (String × String)) (c : String) : Option Rat :=
  match lookupRaw fields c with
  | Option.none => Option.none
  | Option.some s => parseNumeric s

/-- Cell of a processed numeric column by name. -/
def getNum (fields : List (String × Option Rat)) (c : String) : Option Rat :=
  match fields.find? (fun p => p.1 == c) with
  | Option.some p => p.2
  | Option.none => Option.none

/-- Row-wise view of the column conversions of process_daily_metrics:
timestamp via astype(int) and to_datetime (raises on failure, hence
Option), every declared numeric column via to_numeric with coerce, and
the two astype(bool) conversions. -/
def coerceGlobalRow (r : RawGlobalRow) : Option GlobalRow :=
  (parseIntStr r.timestamp).map (fun t =>
    { timestamp := t
      num := numericColsGlobal.map (fun c => (c, coerceField r.num c))
      hasFeeDecrease := r.hasFeeDecrease
      hasFeeIncrease := r.hasFeeIncrease })

/-- Row-wise view of the conversions of process_user_metrics: the user
extraction applies float(...) to the nested balance (raises on failure),
then astype(int) on timestamp, to_datetime on date, and to_numeric with
coerce on every declared numeric column. -/
def coerceUserRow (r : RawUserRow) : Option UserRow :=
  (parseNumeric r.userBalance).bind (fun b =>
    (parseIntStr r.timestamp).bind (fun t =>
      (parseDate r.date).map (fun d =>
        { timestamp := t
          date := d
          user_address := r.userAddress
          user_balance := b
          num := numericColsUser.map (fun c => (c, coerceField r.num c)) })))

/-- Applies a fallible conversion to every row; any failing row makes
the table operation raise, modelled as Option.none. -/
def optMapList {α β : Type} (f : α → Option β) : List α → Option (List β)
  | [] => Option.some []
  | x :: xs =>
    match f x, optMapList f xs with
    | Option.some y, Option.some ys => Option.some (y :: ys)
    | _, _ => Option.none

/-- Stable ascending sort by an integer key, modelling sort_values. -/
def sortByKey {α : Type} (key : α → Int) (l : List α) : List α :=
  List.insertionSort (fun a b => key a ≤ key b) l

/-- Models process_daily_metrics of data_utils.py: the empty table is
returned unchanged; otherwise every column conversion is applied and the
result is sorted ascending by timestamp.  Option.none models an escaped
exception (an unparseable timestamp under astype(int)). -/
def process_daily_metrics (raw : List RawGlobalRow) : Option (List GlobalRow) :=
  if raw.isEmpty then Option.some []
  else (optMapList coerceGlobalRow raw).map (sortByKey GlobalRow.timestamp)

/-- Models process_user_metrics of data_utils.py: the empty table is
returned unchanged; otherwise the nested user object is flattened, the
conversions are applied, and the result is sorted ascending by date. -/
def process_user_metrics (raw : List RawUserRow) : Option (List UserRow) :=
  if raw.isEmpty then Option.some []
  else (optMapList coerceUserRow raw).map (sortByKey UserRow.date)

/-- Parsed JSON body of a fetch response: the body can fail to parse or
lack the expected keys, carry an errors payload, or carry the requested
rows under the data key. -/
inductive JsonBody (ρ : Type) where
  | malformed
  | withErrors
  | withData (rows : List ρ)
deriving DecidableEq

/-- Outcome of the HTTP round trip issued by requests.post: either the
call raises (transport error) or a response with a status code and a
body is returned. -/
inductive HttpResult (ρ : Type) where
  | transportError
  | response (status : Nat) (body : JsonBody ρ)
deriving DecidableEq

/-- Models response.raise_for_status of the requests library, which
raises exactly for client and server error codes, 400 to 599. -/
def raiseForStatusFails (status : Nat) : Bool :=
  400 ≤ status && status < 600

/-- Models fetch_daily_metrics of data_utils.py as a function of the
HTTP outcome: every raised exception is caught by the enclosing
try-except and turned into an empty table, and an errors payload is
turned into an empty table; only a non-raising status with a well formed
data body yields the rows. -/
def fetch_daily_metrics (world : HttpResult RawGlobalRow) : List RawGlobalRow :=
  match world with
  | HttpResult.transportError => []
  | HttpResult.response status body =>
    if raiseForStatusFails status then []
    else
      match body with
      | JsonBody.malformed => []
      | JsonBody.withErrors => []
      | JsonBody.withData rows => rows

/-- Models fetch_user_metrics of data_utils.py; the address is
interpolated into the query text and does not alter the control flow on
the response. -/
def fetch_user_metrics (address : String) (world : HttpResult RawUserRow) :
    List RawUserRow :=
  match world with
  | HttpResult.transportError => []
  | HttpResult.response status body =>
    if raiseForStatusFails status then []
    else
      match body with
      | JsonBody.malformed => []
      | JsonBody.withErrors => []
      | JsonBody.withData rows => rows

/-- Reactive store of the app server: the per-wallet table held in the
user_data reactive value. -/
structure DashboardState where
  user_table : List UserRow
deriving DecidableEq

/-- Notification shown by the update_user_data effect. -/
inductive Notice where
  | silent
  | noDataFound
  | dataLoaded
deriving DecidableEq

/-- Observable outcome of one firing of the update_user_data effect:
the resulting store, the notification, whether a fetch was issued, and
whether an exception escaped the effect body. -/
structure UpdateResult where
  state : DashboardState
  notice : Notice
  fetched : Bool
  raised : Bool
deriving DecidableEq

/-- Models the update_user_data reactive effect of app.py: an empty
address string is falsy, so nothing happens; otherwise the fetched rows
are processed, the store is replaced by the result, and a notification
is shown depending on emptiness.  If processing raises, the store is
left untouched and no notification is shown. -/
def update_user_data (s : DashboardState) (address : String)
    (world : HttpResult RawUserRow) : UpdateResult :=
  if address = "" then
    { state := s, notice := Notice.silent, fetched := false, raised := false }
  else
    match process_user_metrics (fetch_user_metrics address world) with
    | Option.none =>
      { state := s, notice := Notice.silent, fetched := true, raised := true }
    | Option.some data =>
      { state := { user_table := data }
        notice := if data.isEmpty then Notice.noDataFound else Notice.dataLoaded
        fetched := true
        raised := false }

/-- Rolling mean of window w with min_periods 1, as produced by
rolling(window, min_periods=1).mean() on a metric column: at index i the
mean of the non-missing values among the last w entries up to i, NaN if
all of them are missing. -/
def rollingMean (w : Nat) (xs : List (Option Rat)) : List (Option Rat) :=
  (List.range xs.length).map (fun i =>
    let vals := ((xs.take (i + 1)).drop (i + 1 - w)).filterMap id
    if vals.isEmpty then Option.none
    else Option.some (vals.sum / (vals.length : Rat)))

/-- Models the moving-average guard shared by global_time_series and
user_time_series in app.py: the rolling mean trace is added only when
the table has at least w rows, otherwise no trace is produced. -/
def movingAverageTrace (w : Nat) (xs : List (Option Rat)) :
    Option (List (Option Rat)) :=
  if w ≤ xs.length then Option.some (rollingMean w xs) else Option.none

/-- Weekday names in the order used to decode an epoch instant; the
epoch day zero was a Thursday. -/
def weekdayNames : List String :=
  ["Monday", "Tuesday", "Wednesday", "Thursday", "Friday", "Saturday", "Sunday"]

/-- Hour of day of an epoch-seconds instant, as timestamp.dt.hour. -/
def hourOf (t : Int) : Nat := t.toNat % 86400 / 3600

/-- Weekday name of an epoch-seconds instant, as timestamp.dt.day_name(). -/
def weekdayOf (t : Int) : String :=
  weekdayNames.getD ((t.toNat / 86400 + 3) % 7) "Monday"

/-- Non-missing transferCount values of the global rows falling in one
weekday and hour cell, the values pivot_table aggregates there. -/
def cellValuesGlobal (rows : List GlobalRow) (wd : String) (h : Nat) : List Rat :=
  (rows.filter (fun r => weekdayOf r.timestamp == wd && hourOf r.timestamp == h)).filterMap
    (fun r => getNum r.num "transferCount")

/-- Non-missing transferCount values of the user rows falling in one
weekday and hour cell. -/
def cellValuesUser (rows : List UserRow) (wd : String) (h : Nat) : List Rat :=
  (rows.filter (fun r => weekdayOf r.timestamp == wd && hourOf r.timestamp == h)).filterMap
    (fun r => getNum r.num "transferCount")

/-- Arithmetic mean of a list of rationals. -/
def meanOf (vs : List Rat) : Rat := vs.sum / (vs.length : Rat)

/-- Models one cell of the pivot built in global_activity_heatmap:
aggfunc mean over the contributing rows, fill_value 0 for a cell with no
contributing rows. -/
def global_activity_heatmap_cell (rows : List GlobalRow) (wd : String) (h : Nat) : Rat :=
  let vs := cellValuesGlobal rows wd h
  if vs.isEmpty then 0 else meanOf vs

/-- Models one cell of the pivot built in activity_heatmap of the user
view: aggfunc sum over the contributing rows, fill_value 0 for a cell
with no contributing rows. -/
def activity_heatmap_cell (rows : List UserRow) (wd : String) (h : Nat) : Rat :=
  let vs := cellValuesUser rows wd h
  if vs.isEmpty then 0 else vs.sum

/-- Absolute value as computed by the Python abs builtin. -/
def ratAbs (q : Rat) : Rat := if q < 0 then -q else q

/-- Nearest integer to the fraction a over b (with b positive), ties to
even, the rounding used by Python fixed point string formatting.  It is
computed on the integer pair so that it evaluates by plain integer
arithmetic. -/
def roundHalfEvenFrac (a b : Int) : Int :=
  let f : Int := Int.fdiv a b
  let r2 : Int := 2 * (a - f * b)
  if r2 < b then f
  else if b < r2 then f + 1
  else if f % 2 = 0 then f else f + 1

/-- Left pad with zero digits up to a length. -/
def padLeft (s : String) (n : Nat) : String :=
  if s.length < n then String.mk (List.replicate (n - s.length) '0') ++ s else s

/-- Fixed point rendering of the fraction a over b with d digits after
the point, as the Python format specification .df renders the quotient. -/
def fmtFixedFrac (d : Nat) (a b : Int) : String :=
  let n : Int := roundHalfEvenFrac (a * (Int.ofNat (10 ^ d))) b
  let sign : String := if n < 0 then "-" else ""
  let digits : String := padLeft (Nat.repr n.natAbs) (d + 1)
  if d = 0 then sign ++ digits
  else sign ++ digits.take (digits.length - d) ++ "." ++ digits.drop (digits.length - d)

/-- Fixed point rendering of q divided by a scale with d digits after
the point: the exact-fraction model of the Python expression that
divides num by the scale and formats the quotient. -/
def fmtFixedDiv (d : Nat) (q : Rat) (scale : Nat) : String :=
  fmtFixedFrac d q.num ((q.den : Int) * (scale : Int))

/-- Models format_large_number of data_utils.py: N/A for a missing
value, then the first matching magnitude test among 1e9, 1e6, 1e3 with
one decimal and its suffix, else two decimals and no suffix. -/
def format_large_number (x : Option Rat) : String :=
  match x with
  | Option.none => "N/A"
  | Option.some q =>
    if (1000000000 : Rat) ≤ ratAbs q then fmtFixedDiv 1 q 1000000000 ++ "B"
    else if (1000000 : Rat) ≤ ratAbs q then fmtFixedDiv 1 q 1000000 ++ "M"
    else if (1000 : Rat) ≤ ratAbs q then fmtFixedDiv 1 q 1000 ++ "K"
    else fmtFixedDiv 2 q 1

/-- Suffix thresholds in descending order of magnitude. -/
def suffixTable : List (Nat × String) :=
  [(1000000000, "B"), (1000000, "M"), (1000, "K")]

/-- Formatting following the words of the spec: pick the largest
applicable suffix threshold, one decimal with that suffix; below every
threshold, two decimals and no suffix; missing formats to N/A.  Stated
separately from the source translation so the two can be compared. -/
def formatLargeNumberSpec (x : Option Rat) : String :=
  match x with
  | Option.none => "N/A"
  | Option.some q =>
    match suffixTable.find? (fun p => decide (((p.1 : Nat) : Rat) ≤ ratAbs q)) with
    | Option.some p => fmtFixedDiv 1 q p.1 ++ p.2
    | Option.none => fmtFixedDiv 2 q 1

/-- Re-run of the column conversions of process_daily_metrics on an
already typed row, per the already-typed reading of the idempotence
property: to_numeric on a numeric column re-reads each declared numeric
cell, and astype(bool) on a boolean column and the timestamp conversion
on an already converted instant are identities. -/
def coerceTypedGlobalRow (g : GlobalRow) : GlobalRow :=
  { timestamp := g.timestamp
    num := numericColsGlobal.map (fun c => (c, getNum g.num c))
    hasFeeDecrease := g.hasFeeDecrease
    hasFeeIncrease := g.hasFeeIncrease }

/-- Re-run of process_daily_metrics on an already typed table: identity
conversions followed by the final sort_values on timestamp; the empty
table is returned unchanged. -/
def process_daily_metrics_typed (t : List GlobalRow) : List GlobalRow :=
  if t.isEmpty then t
  else sortByKey GlobalRow.timestamp (t.map coerceTypedGlobalRow)

/-- Re-run of the conversions of process_user_metrics on an already
typed row: the nested user object is already flattened, so only the
numeric column re-reads remain. -/
def coerceTypedUserRow (u : UserRow) : UserRow :=
  { timestamp := u.timestamp
    date := u.date
    user_address := u.user_address
    user_balance := u.user_balance
    num := numericColsUser.map (fun c => (c, getNum u.num c)) }

/-- Re-run of process_user_metrics on an already typed table: identity
conversions followed by the final sort_values on date. -/
def process_user_metrics_typed (t : List UserRow) : List UserRow :=
  if t.isEmpty then t
  else sortByKey UserRow.date (t.map coerceTypedUserRow)

/-! Helper lemmas shared by the claim theorems. -/

theorem optMapList_length {α β : Type} (f : α → Option β) :
    ∀ (l : List α) (out : List β), optMapList f l = Option.some out →
      out.length = l.length := by
  intro l
  induction l with
  | nil =>
    intro out h
    simp [optMapList] at h
    simp [h.symm]
  | cons x xs ih =>
    intro out h
    simp only [optMapList] at h
    cases hfx : f x with
    | none => rw [hfx] at h; simp at h
    | some y =>
      rw [hfx] at h
      cases hrest : optMapList f xs with
      | none => rw [hrest] at h; simp at h
      | some ys =>
        rw [hrest] at h
        simp at h
        rw [h.symm]
        simp [ih ys hrest]

theorem optMapList_isSome {α β : Type} (f : α → Option β) :
    ∀ l : List α, (∀ x ∈ l, (f x).isSome) → (optMapList f l).isSome := by
  intro l
  induction l with
  | nil => intro _; simp [optMapList]
  | cons x xs ih =>
    intro hall
    have hx : (f x).isSome := hall x (List.mem_cons_self x xs)
    have hxs : (optMapList f xs).isSome :=
      ih (fun y hy => hall y (List.mem_cons_of_mem x hy))
    rcases Option.isSome_iff_exists.mp hx with ⟨y, hy⟩
    rcases Option.isSome_iff_exists.mp hxs with ⟨ys, hys⟩
    simp [optMapList, hy, hys]

theorem optMapList_mem {α β : Type} (f : α → Option β) :
    ∀ (l : List α) (out : List β), optMapList f l = Option.some out →
      ∀ b ∈ out, ∃ a ∈ l, f a = Option.some b := by
  intro l
  induction l with
  | nil =>
    intro out h b hb
    simp [optMapList] at h
    subst h
    cases hb
  | cons x xs ih =>
    intro out h b hb
    simp only [optMapList] at h
    cases hfx : f x with
    | none => rw [hfx] at h; simp at h
    | some y =>
      rw [hfx] at h
      cases hrest : optMapList f xs with
      | none => rw [hrest] at h; simp at h
      | some ys =>
        rw [hrest] at h
        simp at h
        rw [h.symm] at hb
        rcases List.mem_cons.mp hb with hby | hbys
        · exact ⟨x, List.mem_cons_self x xs, by rw [hfx, hby]⟩
        · rcases ih ys hrest b hbys with ⟨a, ha, hfa⟩
          exact ⟨a, List.mem_cons_of_mem x ha, hfa⟩

theorem sortByKey_length {α : Type} (key : α → Int) (l : List α) :
    (sortByKey key l).length = l.length :=
  List.length_insertionSort _ l

theorem sortByKey_mem {α : Type} (key : α → Int) (l : List α) (a : α) :
    a ∈ sortByKey key l ↔ a ∈ l :=
  List.mem_insertionSort _

theorem sortByKey_sorted {α : Type} (key : α → Int) (l : List α) :
    List.Sorted (fun a b => key a ≤ key b) (sortByKey key l) := by
  haveI : IsTotal α (fun a b => key a ≤ key b) := ⟨fun a b => le_total _ _⟩
  haveI : IsTrans α (fun a b => key a ≤ key b) :=
    ⟨fun _ _ _ hab hbc => le_trans hab hbc⟩
  exact List.sorted_insertionSort _ l

theorem sortByKey_of_sorted {α : Type} (key : α → Int) (l : List α)
    (h : List.Sorted (fun a b => key a ≤ key b) l) : sortByKey key l = l :=
  h.insertionSort_eq

theorem find?_keyed {β : Type} (f : String → β) :
    ∀ (cols : List String) (c : String), c ∈ cols →
      List.find? (fun p => p.1 == c) (cols.map (fun x => (x, f x))) =
        Option.some (c, f c) := by
  intro cols
  induction cols with
  | nil => intro c hc; cases hc
  | cons x xs ih =>
    intro c hc
    by_cases hx : x = c
    · rw [List.map_cons, List.find?_cons_of_pos]
      · rw [hx]
      · simp [hx]
    · rw [List.map_cons, List.find?_cons_of_neg]
      · apply ih
        rcases List.mem_cons.mp hc with hcx | hcxs
        · exact absurd hcx.symm hx
        · exact hcxs
      · simp [hx]

theorem getNum_map_keyed (f : String → Option Rat) (cols : List String)
    (c : String) (hc : c ∈ cols) :
    getNum (cols.map (fun x => (x, f x))) c = f c := by
  rw [getNum, find?_keyed f cols c hc]

/-! Claim theorems. -/

/-- C1 counterexample: the claim says every non-2xx HTTP status yields
an empty table, but raise_for_status only raises for statuses 400 to
599, so a status 300 response whose body carries a data payload is
returned as a non-empty table by fetch_daily_metrics. -/
theorem C1_counterexample :
    fetch_daily_metrics (HttpResult.response 300 (JsonBody.withData
      [{ timestamp := "100", num := [], hasFeeDecrease := false,
         hasFeeIncrease := false }])) =
      [{ timestamp := "100", num := [], hasFeeDecrease := false,
         hasFeeIncrease := false }] ∧
    ([{ timestamp := "100", num := [], hasFeeDecrease := false,
        hasFeeIncrease := false }] : List RawGlobalRow) ≠ [] := by
  exact ⟨rfl, by decide⟩

/-- C1 amended: on a transport error, an HTTP status in 400 to 599, a
malformed response body, or a response whose JSON contains a query-error
payload, fetch_daily_metrics and fetch_user_metrics return the empty
table; both functions are total, so no exception escapes the client
boundary. -/
theorem C1_amended (address : String) (s s2 : Nat)
    (bg : JsonBody RawGlobalRow) (bu : JsonBody RawUserRow)
    (hs : raiseForStatusFails s = true) :
    fetch_daily_metrics HttpResult.transportError = [] ∧
    fetch_user_metrics address HttpResult.transportError = [] ∧
    fetch_daily_metrics (HttpResult.response s bg) = [] ∧
    fetch_user_metrics address (HttpResult.response s bu) = [] ∧
    fetch_daily_metrics (HttpResult.response s2 JsonBody.withErrors) = [] ∧
    fetch_user_metrics address (HttpResult.response s2 JsonBody.withErrors) = [] ∧
    fetch_daily_metrics (HttpResult.response s2 JsonBody.malformed) = [] ∧
    fetch_user_metrics address (HttpResult.response s2 JsonBody.malformed) = [] := by
  refine ⟨rfl, rfl, ?_, ?_, ?_, ?_, ?_, ?_⟩
  · simp [fetch_daily_metrics, hs]
  · simp [fetch_user_metrics, hs]
  · by_cases h2 : raiseForStatusFails s2 <;> simp [fetch_daily_metrics, h2]
  · by_cases h2 : raiseForStatusFails s2 <;> simp [fetch_user_metrics, h2]
  · by_cases h2 : raiseForStatusFails s2 <;> simp [fetch_daily_metrics, h2]
  · by_cases h2 : raiseForStatusFails s2 <;> simp [fetch_user_metrics, h2]

/-- C1 amended, witness at a concrete failing world: server error 500
and an error payload at status 200. -/
theorem C1_amended_witness :
    fetch_daily_metrics HttpResult.transportError = [] ∧
    fetch_user_metrics "0xabc" HttpResult.transportError = [] ∧
    fetch_daily_metrics (HttpResult.response 500 JsonBody.malformed) = [] ∧
    fetch_user_metrics "0xabc" (HttpResult.response 500 JsonBody.malformed) = [] ∧
    fetch_daily_metrics (HttpResult.response 200 JsonBody.withErrors) = [] ∧
    fetch_user_metrics "0xabc" (HttpResult.response 200 JsonBody.withErrors) = [] ∧
    fetch_daily_metrics (HttpResult.response 200 JsonBody.malformed) = [] ∧
    fetch_user_metrics "0xabc" (HttpResult.response 200 JsonBody.malformed) = [] :=
  C1_amended "0xabc" 500 200 JsonBody.malformed JsonBody.malformed (by decide)

/-- C4: for every metric column and window size of at least one (the
range the numeric input enforces), the rolling-average trace is added
only when the table has at least window rows, it is omitted entirely
when the table is shorter, and when produced the series has the same
length as the input, since the rolling mean uses min_periods 1. -/
theorem C4_moving_average_trace (w : Nat) (xs : List (Option Rat)) (hw : 1 ≤ w) :
    (xs.length < w → movingAverageTrace w xs = Option.none) ∧
    (w ≤ xs.length →
      movingAverageTrace w xs = Option.some (rollingMean w xs) ∧
      (rollingMean w xs).length = xs.length) := by
  constructor
  · intro hlt
    simp [movingAverageTrace, Nat.not_le.mpr hlt]
  · intro hle
    refine ⟨by simp [movingAverageTrace, hle], ?_⟩
    simp [rollingMean]

/-- C4 witness: a seven-row table with a seven-day window produces a
trace of length seven; a shorter table omits the trace. -/
theorem C4_moving_average_trace_witness :
    (movingAverageTrace 7 [Option.some 1, Option.some 2, Option.none,
        Option.some 4, Option.some 5, Option.some 6, Option.some 7] =
      Option.some (rollingMean 7 [Option.some 1, Option.some 2, Option.none,
        Option.some 4, Option.some 5, Option.some 6, Option.some 7]) ∧
      (rollingMean 7 [Option.some 1, Option.some 2, Option.none,
        Option.some 4, Option.some 5, Option.some 6, Option.some 7]).length =
        ([Option.some 1, Option.some 2, Option.none, Option.some 4,
          Option.some 5, Option.some 6, Option.some 7] : List (Option Rat)).length) ∧
    movingAverageTrace 7 [Option.some (1 : Rat), Option.some 2] = Option.none := by
  constructor
  · exact (C4_moving_average_trace 7 _ (by decide)).2 (by decide)
  · exact (C4_moving_average_trace 7 [Option.some (1 : Rat), Option.some 2]
      (by decide)).1 (by decide)

/-- C10: firing the lookup action with an empty address string performs
no fetch and leaves the dashboard state unchanged: the effect is a no-op
apart from the absent notification. -/
theorem C10_empty_address_noop (s : DashboardState) (world : HttpResult RawUserRow) :
    update_user_data s "" world =
      { state := s, notice := Notice.silent, fetched := false, raised := false } := rfl

/-- C2: for every non-empty raw global input on which
process_daily_metrics completes (returns a table rather than raising on
the timestamp conversion), the output is sorted ascending by the
timestamp field and has exactly the same number of rows as the input. -/
theorem C2_normalize_global_sorted_same_length
    (raw : List RawGlobalRow) (hne : raw ≠ [])
    (hp : (process_daily_metrics raw).isSome) :
    List.Sorted (fun a b : GlobalRow => a.timestamp ≤ b.timestamp)
      ((process_daily_metrics raw).getD []) ∧
    ((process_daily_metrics raw).getD []).length = raw.length := by
  have hne2 : raw.isEmpty = false := by
    cases raw with
    | nil => exact absurd rfl hne
    | cons x xs => rfl
  rw [process_daily_metrics, hne2] at hp ⊢
  simp only [Bool.false_eq_true, if_false] at hp ⊢
  cases hm : optMapList coerceGlobalRow raw with
  | none => rw [hm] at hp; simp at hp
  | some l0 =>
    constructor
    · exact sortByKey_sorted GlobalRow.timestamp l0
    · show (sortByKey GlobalRow.timestamp l0).length = raw.length
      rw [sortByKey_length]
      exact optMapList_length coerceGlobalRow raw l0 hm

/-- C2 witness: a concrete two-row raw table arriving in descending
order is returned sorted ascending with both rows kept. -/
theorem C2_normalize_global_witness :
    List.Sorted (fun a b : GlobalRow => a.timestamp ≤ b.timestamp)
      ((process_daily_metrics
        [{ timestamp := "200", num := [("volume", "3.5")],
           hasFeeDecrease := false, hasFeeIncrease := false },
         { timestamp := "100", num := [("volume", "abc")],
           hasFeeDecrease := true, hasFeeIncrease := false }]).getD []) ∧
    ((process_daily_metrics
        [{ timestamp := "200", num := [("volume", "3.5")],
           hasFeeDecrease := false, hasFeeIncrease := false },
         { timestamp := "100", num := [("volume", "abc")],
           hasFeeDecrease := true, hasFeeIncrease := false }]).getD []).length =
      ([{ timestamp := "200", num := [("volume", "3.5")],
          hasFeeDecrease := false, hasFeeIncrease := false },
        { timestamp := "100", num := [("volume", "abc")],
          hasFeeDecrease := true, hasFeeIncrease := false }] :
        List RawGlobalRow).length :=
  C2_normalize_global_sorted_same_length _ (by decide) (by decide)

/-- C5: a successful wallet lookup fully replaces the previous
user_table with the processed result, independent of the previous state;
a lookup returning zero rows installs the empty table and shows the
no-data-found notice. -/
theorem C5_lookup_replaces_table (s s2 : DashboardState) (address : String)
    (world : HttpResult RawUserRow) (data : List UserRow)
    (ha : address ≠ "")
    (hp : process_user_metrics (fetch_user_metrics address world) =
      Option.some data) :
    (update_user_data s address world).state.user_table = data ∧
    (update_user_data s address world).state =
      (update_user_data s2 address world).state ∧
    (data = [] → (update_user_data s address world).notice = Notice.noDataFound) := by
  rw [update_user_data, update_user_data, if_neg ha, if_neg ha, hp]
  refine ⟨rfl, rfl, ?_⟩
  intro hdata
  subst hdata
  rfl

/-- C5 witness: a lookup against a world holding zero rows for the
queried address replaces a previously non-empty user table with the
empty table and shows the no-data-found notice. -/
theorem C5_lookup_replaces_table_witness :
    (update_user_data
      { user_table := [{ timestamp := 100
                         date := 20240101
                         user_address := "0xdead"
                         user_balance := 5
                         num := [("transferCount", Option.some 3)] }] }
      "0xabc" (HttpResult.response 200 (JsonBody.withData []))).state.user_table
      = ([] : List UserRow) ∧
    (update_user_data
      { user_table := [{ timestamp := 100
                         date := 20240101
                         user_address := "0xdead"
                         user_balance := 5
                         num := [("transferCount", Option.some 3)] }] }
      "0xabc" (HttpResult.response 200 (JsonBody.withData []))).notice =
      Notice.noDataFound := by
  refine ⟨?_, ?_⟩
  · exact (C5_lookup_replaces_table _
      { user_table := [] } "0xabc"
      (HttpResult.response 200 (JsonBody.withData [])) []
      (by decide) (by decide)).1
  · exact (C5_lookup_replaces_table _
      { user_table := [] } "0xabc"
      (HttpResult.response 200 (JsonBody.withData [])) []
      (by decide) (by decide)).2.2 rfl

set_option maxHeartbeats 2000000 in
/-- C3: format_large_number agrees everywhere with the spec rule that
picks the largest applicable suffix threshold (B at 1e9, M at 1e6, K at
1e3, one decimal place) and formats values of magnitude below 1e3 with
two decimal places, and it maps the spec examples 999, 1500, 2500000,
3000000000 and the missing value to their stated strings. -/
theorem C3_format_large_number (x : Option Rat) :
    format_large_number x = formatLargeNumberSpec x ∧
    format_large_number (Option.some 999) = "999.00" ∧
    format_large_number (Option.some 1500) = "1.5K" ∧
    format_large_number (Option.some 2500000) = "2.5M" ∧
    format_large_number (Option.some 3000000000) = "3.0B" ∧
    format_large_number Option.none = "N/A" := by
  refine ⟨?_, by decide, by decide, by decide, by decide, rfl⟩
  cases x with
  | none => rfl
  | some q =>
    rw [format_large_number, formatLargeNumberSpec, suffixTable]
    by_cases h1 : (1000000000 : Rat) ≤ ratAbs q
    · rw [if_pos h1, List.find?_cons_of_pos _ (by simpa using h1)]
    · rw [if_neg h1, List.find?_cons_of_neg _ (by simpa using h1)]
      by_cases h2 : (1000000 : Rat) ≤ ratAbs q
      · rw [if_pos h2, List.find?_cons_of_pos _ (by simpa using h2)]
      · rw [if_neg h2, List.find?_cons_of_neg _ (by simpa using h2)]
        by_cases h3 : (1000 : Rat) ≤ ratAbs q
        · rw [if_pos h3, List.find?_cons_of_pos _ (by simpa using h3)]
        · rw [if_neg h3, List.find?_cons_of_neg _ (by simpa using h3)]
          rfl

set_option maxHeartbeats 2000000 in
/-- C9: the suffix test uses the absolute value, so a negative input of
magnitude at least 1e3 is formatted with a scale suffix even though it
is numerically below 1e3, as in the concrete case of minus 1500; only
inputs of magnitude below 1e3 get the two-decimal no-suffix form. -/
theorem C9_negative_suffix_by_magnitude (q p : Rat)
    (hneg : q < 0) (hmag : (1000 : Rat) ≤ ratAbs q)
    (hp : ratAbs p < 1000) :
    format_large_number (Option.some (-1500)) = "-1.5K" ∧
    (∃ t s, s ∈ (["K", "M", "B"] : List String) ∧
      format_large_number (Option.some q) = t ++ s) ∧
    format_large_number (Option.some p) = fmtFixedDiv 2 p 1 := by
  refine ⟨by decide, ?_, ?_⟩
  · by_cases h1 : (1000000000 : Rat) ≤ ratAbs q
    · exact ⟨fmtFixedDiv 1 q 1000000000, "B", by simp,
        by rw [format_large_number, if_pos h1]⟩
    · by_cases h2 : (1000000 : Rat) ≤ ratAbs q
      · exact ⟨fmtFixedDiv 1 q 1000000, "M", by simp,
          by rw [format_large_number, if_neg h1, if_pos h2]⟩
      · exact ⟨fmtFixedDiv 1 q 1000, "K", by simp,
          by rw [format_large_number, if_neg h1, if_neg h2, if_pos hmag]⟩
  · have h1 : ¬ (1000000000 : Rat) ≤ ratAbs p := by
      intro hcon
      have : (1000 : Rat) ≤ ratAbs p := le_trans (by norm_num) hcon
      exact absurd this (not_le.mpr hp)
    have h2 : ¬ (1000000 : Rat) ≤ ratAbs p := by
      intro hcon
      have : (1000 : Rat) ≤ ratAbs p := le_trans (by norm_num) hcon
      exact absurd this (not_le.mpr hp)
    rw [format_large_number, if_neg h1, if_neg h2, if_neg (not_le.mpr hp)]

/-- C9 witness at the concrete pair: minus 1500 gets the K suffix, and
500, of magnitude below 1e3, gets the plain two-decimal form. -/
theorem C9_negative_suffix_witness :
    (∃ t s, s ∈ (["K", "M", "B"] : List String) ∧
      format_large_number (Option.some (-1500)) = t ++ s) ∧
    format_large_number (Option.some (500 : Rat)) = fmtFixedDiv 2 500 1 := by
  refine ⟨?_, ?_⟩
  · exact (C9_negative_suffix_by_magnitude (-1500) 500 (by norm_num)
      (by decide) (by decide)).2.1
  · exact (C9_negative_suffix_by_magnitude (-1500) 500 (by norm_num)
      (by decide) (by decide)).2.2

/-- Sum of a list of rationals all equal to zero. -/
theorem listSumZero : ∀ vs : List Rat, (∀ v ∈ vs, v = 0) → vs.sum = 0 := by
  intro vs
  induction vs with
  | nil => intro _; rfl
  | cons x xs ih =>
    intro hall
    rw [List.sum_cons, hall x (List.mem_cons_self x xs),
      ih (fun y hy => hall y (List.mem_cons_of_mem x hy)), add_zero]

/-- Mapping a function that fixes every member of a list is the
identity on that list. -/
theorem mapFixId {α : Type} (f : α → α) :
    ∀ l : List α, (∀ a ∈ l, f a = a) → l.map f = l := by
  intro l
  induction l with
  | nil => intro _; rfl
  | cons x xs ih =>
    intro hall
    rw [List.map_cons, hall x (List.mem_cons_self x xs),
      ih (fun y hy => hall y (List.mem_cons_of_mem x hy))]

/-- A row produced by the global coercion is a fixed point of the typed
re-run of the global conversions. -/
theorem coerceTypedGlobalRow_fix (a : RawGlobalRow) (g : GlobalRow)
    (h : coerceGlobalRow a = Option.some g) : coerceTypedGlobalRow g = g := by
  rw [coerceGlobalRow] at h
  rcases Option.map_eq_some'.mp h with ⟨t, ht, hF⟩
  rw [hF.symm, coerceTypedGlobalRow]
  simp only [GlobalRow.mk.injEq]
  refine ⟨trivial, ?_, trivial, trivial⟩
  apply List.map_congr_left
  intro x hx
  rw [getNum_map_keyed (fun y => coerceField a.num y) numericColsGlobal x hx]

/-- A row produced by the user coercion is a fixed point of the typed
re-run of the user conversions. -/
theorem coerceTypedUserRow_fix (a : RawUserRow) (u : UserRow)
    (h : coerceUserRow a = Option.some u) : coerceTypedUserRow u = u := by
  rw [coerceUserRow] at h
  rcases Option.bind_eq_some.mp h with ⟨b, hb, h2⟩
  rcases Option.bind_eq_some.mp h2 with ⟨t, ht, h3⟩
  rcases Option.map_eq_some'.mp h3 with ⟨d, hd, hF⟩
  rw [hF.symm, coerceTypedUserRow]
  simp only [UserRow.mk.injEq]
  refine ⟨trivial, trivial, trivial, trivial, ?_⟩
  apply List.map_congr_left
  intro x hx
  rw [getNum_map_keyed (fun y => coerceField a.num y) numericColsUser x hx]

/-- C6: during normalization, a declared numeric cell is read only
through the coercing parser, so a value that cannot be parsed as
numeric becomes missing in the output row while the row survives; and
an unparseable numeric cell never aborts the table: processing
completes whenever the non-coerced conversions (timestamp, date, nested
balance) succeed, whatever the numeric cells hold. -/
theorem C6_coercion_failure_per_field
    (r : RawGlobalRow) (u : RawUserRow) (c cu : String)
    (rawg : List RawGlobalRow) (rawu : List RawUserRow)
    (hr : (parseIntStr r.timestamp).isSome)
    (hub : (parseNumeric u.userBalance).isSome)
    (hut : (parseIntStr u.timestamp).isSome)
    (hud : (parseDate u.date).isSome)
    (hc : c ∈ numericColsGlobal)
    (hcu : cu ∈ numericColsUser)
    (hgs : ∀ x ∈ rawg, (parseIntStr x.timestamp).isSome)
    (hus : ∀ x ∈ rawu, (parseNumeric x.userBalance).isSome ∧
      (parseIntStr x.timestamp).isSome ∧ (parseDate x.date).isSome) :
    (coerceGlobalRow r).map (fun g => getNum g.num c) =
      Option.some (coerceField r.num c) ∧
    (coerceUserRow u).map (fun g => getNum g.num cu) =
      Option.some (coerceField u.num cu) ∧
    (process_daily_metrics rawg).isSome ∧
    (process_user_metrics rawu).isSome := by
  refine ⟨?_, ?_, ?_, ?_⟩
  · rcases Option.isSome_iff_exists.mp hr with ⟨t, ht⟩
    rw [coerceGlobalRow, ht]
    show Option.some
        (getNum (numericColsGlobal.map (fun x => (x, coerceField r.num x))) c) =
      Option.some (coerceField r.num c)
    rw [getNum_map_keyed (fun y => coerceField r.num y) numericColsGlobal c hc]
  · rcases Option.isSome_iff_exists.mp hub with ⟨b, hb⟩
    rcases Option.isSome_iff_exists.mp hut with ⟨t, ht⟩
    rcases Option.isSome_iff_exists.mp hud with ⟨d, hd⟩
    rw [coerceUserRow, hb, ht, hd]
    show Option.some
        (getNum (numericColsUser.map (fun x => (x, coerceField u.num x))) cu) =
      Option.some (coerceField u.num cu)
    rw [getNum_map_keyed (fun y => coerceField u.num y) numericColsUser cu hcu]
  · rw [process_daily_metrics]
    by_cases he : rawg.isEmpty
    · rw [if_pos he]; rfl
    · rw [if_neg he]
      have hsome : (optMapList coerceGlobalRow rawg).isSome := by
        apply optMapList_isSome
        intro x hx
        rcases Option.isSome_iff_exists.mp (hgs x hx) with ⟨t, ht⟩
        rw [coerceGlobalRow, ht]
        rfl
      rcases Option.isSome_iff_exists.mp hsome with ⟨l0, hl0⟩
      rw [hl0]
      rfl
  · rw [process_user_metrics]
    by_cases he : rawu.isEmpty
    · rw [if_pos he]; rfl
    · rw [if_neg he]
      have hsome : (optMapList coerceUserRow rawu).isSome := by
        apply optMapList_isSome
        intro x hx
        rcases Option.isSome_iff_exists.mp (hus x hx).1 with ⟨b, hb⟩
        rcases Option.isSome_iff_exists.mp (hus x hx).2.1 with ⟨t, ht⟩
        rcases Option.isSome_iff_exists.mp (hus x hx).2.2 with ⟨d, hd⟩
        rw [coerceUserRow, hb, ht, hd]
        rfl
      rcases Option.isSome_iff_exists.mp hsome with ⟨l0, hl0⟩
      rw [hl0]
      rfl

/-- C6 witness: a raw global row carrying the unparseable volume cell
abc keeps its row, its volume becomes missing, and the one-row table
processes without raising; likewise a user table whose feesPaid cell is
unparseable. -/
theorem C6_coercion_failure_witness :
    (coerceGlobalRow
      { timestamp := "100", num := [("volume", "abc"), ("transferCount", "7")],
        hasFeeDecrease := false, hasFeeIncrease := false }).map
      (fun g => getNum g.num "volume") =
      Option.some (coerceField
        [("volume", "abc"), ("transferCount", "7")] "volume") ∧
    coerceField [("volume", "abc"), ("transferCount", "7")] "volume" =
      Option.none ∧
    (coerceUserRow
      { timestamp := "100", date := "2024-01-15", userAddress := "0xdead",
        userBalance := "5", num := [("feesPaid", "oops")] }).map
      (fun g => getNum g.num "feesPaid") =
      Option.some (coerceField [("feesPaid", "oops")] "feesPaid") ∧
    coerceField [("feesPaid", "oops")] "feesPaid" = Option.none ∧
    (process_daily_metrics
      [{ timestamp := "100", num := [("volume", "abc"), ("transferCount", "7")],
         hasFeeDecrease := false, hasFeeIncrease := false }]).isSome ∧
    (process_user_metrics
      [{ timestamp := "100", date := "2024-01-15", userAddress := "0xdead",
         userBalance := "5", num := [("feesPaid", "oops")] }]).isSome := by
  have h := C6_coercion_failure_per_field
    { timestamp := "100", num := [("volume", "abc"), ("transferCount", "7")],
      hasFeeDecrease := false, hasFeeIncrease := false }
    { timestamp := "100", date := "2024-01-15", userAddress := "0xdead",
      userBalance := "5", num := [("feesPaid", "oops")] }
    "volume" "feesPaid"
    [{ timestamp := "100", num := [("volume", "abc"), ("transferCount", "7")],
       hasFeeDecrease := false, hasFeeIncrease := false }]
    [{ timestamp := "100", date := "2024-01-15", userAddress := "0xdead",
       userBalance := "5", num := [("feesPaid", "oops")] }]
    (by decide) (by decide) (by decide) (by decide) (by decide) (by decide)
    (by decide) (by decide)
  exact ⟨h.1, by decide, h.2.1, by decide, h.2.2.1, h.2.2.2⟩

/-- C7: the activity pivots cross-tabulate weekday name against hour of
day over the transferCount field, mean in the global view and sum in
the user view, filling absent cells with 0; when every transferCount
outside one distinguished weekday-hour cell is zero, every other cell
of the matrix is 0, and the distinguished cell carries the mean
(global) respectively the sum (user) of its contributing rows. -/
theorem C7_activity_pivot_single_cell
    (grows : List GlobalRow) (urows : List UserRow)
    (wd0 : String) (h0 : Nat) (wd : String) (h : Nat)
    (hg : ∀ r ∈ grows,
      ¬(weekdayOf r.timestamp = wd0 ∧ hourOf r.timestamp = h0) →
        getNum r.num "transferCount" = Option.some 0)
    (hu : ∀ r ∈ urows,
      ¬(weekdayOf r.timestamp = wd0 ∧ hourOf r.timestamp = h0) →
        getNum r.num "transferCount" = Option.some 0)
    (hne : ¬(wd = wd0 ∧ h = h0)) :
    global_activity_heatmap_cell grows wd h = 0 ∧
    activity_heatmap_cell urows wd h = 0 ∧
    global_activity_heatmap_cell grows wd0 h0 =
      meanOf (cellValuesGlobal grows wd0 h0) ∧
    activity_heatmap_cell urows wd0 h0 = (cellValuesUser urows wd0 h0).sum := by
  have hzg : ∀ v ∈ cellValuesGlobal grows wd h, v = 0 := by
    intro v hv
    rw [cellValuesGlobal] at hv
    rcases List.mem_filterMap.mp hv with ⟨r, hrmem, hrv⟩
    rcases List.mem_filter.mp hrmem with ⟨hrg, hcond⟩
    have hwdr : weekdayOf r.timestamp = wd ∧ hourOf r.timestamp = h := by
      constructor
      · exact beq_iff_eq.mp (Bool.and_elim_left hcond)
      · exact beq_iff_eq.mp (Bool.and_elim_right hcond)
    have hr0 : getNum r.num "transferCount" = Option.some 0 := by
      apply hg r hrg
      intro hcon
      exact hne ⟨hwdr.1.symm.trans hcon.1, hwdr.2.symm.trans hcon.2⟩
    rw [hr0] at hrv
    exact (Option.some.inj hrv).symm
  have hzu : ∀ v ∈ cellValuesUser urows wd h, v = 0 := by
    intro v hv
    rw [cellValuesUser] at hv
    rcases List.mem_filterMap.mp hv with ⟨r, hrmem, hrv⟩
    rcases List.mem_filter.mp hrmem with ⟨hrg, hcond⟩
    have hwdr : weekdayOf r.timestamp = wd ∧ hourOf r.timestamp = h := by
      constructor
      · exact beq_iff_eq.mp (Bool.and_elim_left hcond)
      · exact beq_iff_eq.mp (Bool.and_elim_right hcond)
    have hr0 : getNum r.num "transferCount" = Option.some 0 := by
      apply hu r hrg
      intro hcon
      exact hne ⟨hwdr.1.symm.trans hcon.1, hwdr.2.symm.trans hcon.2⟩
    rw [hr0] at hrv
    exact (Option.some.inj hrv).symm
  refine ⟨?_, ?_, ?_, ?_⟩
  · show (if (cellValuesGlobal grows wd h).isEmpty then 0
      else meanOf (cellValuesGlobal grows wd h)) = 0
    by_cases he : (cellValuesGlobal grows wd h).isEmpty
    · rw [if_pos he]
    · rw [if_neg he, meanOf, listSumZero _ hzg, zero_div]
  · show (if (cellValuesUser urows wd h).isEmpty then 0
      else (cellValuesUser urows wd h).sum) = 0
    by_cases he : (cellValuesUser urows wd h).isEmpty
    · rw [if_pos he]
    · rw [if_neg he, listSumZero _ hzu]
  · show (if (cellValuesGlobal grows wd0 h0).isEmpty then 0
      else meanOf (cellValuesGlobal grows wd0 h0)) =
      meanOf (cellValuesGlobal grows wd0 h0)
    by_cases he : (cellValuesGlobal grows wd0 h0).isEmpty
    · rw [if_pos he, List.isEmpty_iff.mp he, meanOf]
      simp
    · rw [if_neg he]
  · show (if (cellValuesUser urows wd0 h0).isEmpty then 0
      else (cellValuesUser urows wd0 h0).sum) =
      (cellValuesUser urows wd0 h0).sum
    by_cases he : (cellValuesUser urows wd0 h0).isEmpty
    · rw [if_pos he, List.isEmpty_iff.mp he]
      rfl
    · rw [if_neg he]

/-- C7 witness: one global row and two user rows, all at epoch instant
zero (a Thursday, hour zero); the Monday hour five cells are zero and
the Thursday hour zero cells equal the mean respectively the sum of the
contributing rows. -/
theorem C7_activity_pivot_witness :
    global_activity_heatmap_cell
      [{ timestamp := 0, num := [("transferCount", Option.some 4)],
         hasFeeDecrease := false, hasFeeIncrease := false }] "Monday" 5 = 0 ∧
    activity_heatmap_cell
      [{ timestamp := 0, date := 20240101, user_address := "0xdead",
         user_balance := 1, num := [("transferCount", Option.some 3)] },
       { timestamp := 0, date := 20240102, user_address := "0xdead",
         user_balance := 1, num := [("transferCount", Option.some 5)] }]
      "Monday" 5 = 0 ∧
    global_activity_heatmap_cell
      [{ timestamp := 0, num := [("transferCount", Option.some 4)],
         hasFeeDecrease := false, hasFeeIncrease := false }] "Thursday" 0 =
      meanOf (cellValuesGlobal
        [{ timestamp := 0, num := [("transferCount", Option.some 4)],
           hasFeeDecrease := false, hasFeeIncrease := false }] "Thursday" 0) ∧
    activity_heatmap_cell
      [{ timestamp := 0, date := 20240101, user_address := "0xdead",
         user_balance := 1, num := [("transferCount", Option.some 3)] },
       { timestamp := 0, date := 20240102, user_address := "0xdead",
         user_balance := 1, num := [("transferCount", Option.some 5)] }]
      "Thursday" 0 =
      (cellValuesUser
        [{ timestamp := 0, date := 20240101, user_address := "0xdead",
           user_balance := 1, num := [("transferCount", Option.some 3)] },
         { timestamp := 0, date := 20240102, user_address := "0xdead",
           user_balance := 1, num := [("transferCount", Option.some 5)] }]
        "Thursday" 0).sum :=
  C7_activity_pivot_single_cell
    [{ timestamp := 0, num := [("transferCount", Option.some 4)],
       hasFeeDecrease := false, hasFeeIncrease := false }]
    [{ timestamp := 0, date := 20240101, user_address := "0xdead",
       user_balance := 1, num := [("transferCount", Option.some 3)] },
     { timestamp := 0, date := 20240102, user_address := "0xdead",
       user_balance := 1, num := [("transferCount", Option.some 5)] }]
    "Thursday" 0 "Monday" 5 (by decide) (by decide) (by decide)

/-- C8: normalization is idempotent in the already-typed sense: running
the conversions and the final sort of process_daily_metrics and
process_user_metrics again on their own output, with the type coercions
acting on already typed columns, returns the output unchanged. -/
theorem C8_normalize_idempotent
    (rawg : List RawGlobalRow) (rawu : List RawUserRow)
    (hg : (process_daily_metrics rawg).isSome)
    (hu : (process_user_metrics rawu).isSome) :
    process_daily_metrics_typed ((process_daily_metrics rawg).getD []) =
      (process_daily_metrics rawg).getD [] ∧
    process_user_metrics_typed ((process_user_metrics rawu).getD []) =
      (process_user_metrics rawu).getD [] := by
  constructor
  · rw [process_daily_metrics] at hg ⊢
    by_cases he : rawg.isEmpty
    · rw [if_pos he]
      rfl
    · rw [if_neg he] at hg ⊢
      cases hm : optMapList coerceGlobalRow rawg with
      | none => rw [hm] at hg; simp at hg
      | some l0 =>
        show process_daily_metrics_typed (sortByKey GlobalRow.timestamp l0) =
          sortByKey GlobalRow.timestamp l0
        have hfix : ∀ g ∈ sortByKey GlobalRow.timestamp l0,
            coerceTypedGlobalRow g = g := by
          intro g hgmem
          have hgl0 : g ∈ l0 := (sortByKey_mem GlobalRow.timestamp l0 g).mp hgmem
          rcases optMapList_mem coerceGlobalRow rawg l0 hm g hgl0 with ⟨a, _, ha⟩
          exact coerceTypedGlobalRow_fix a g ha
        rw [process_daily_metrics_typed]
        by_cases he2 : (sortByKey GlobalRow.timestamp l0).isEmpty
        · rw [if_pos he2]
        · rw [if_neg he2, mapFixId _ _ hfix, sortByKey_of_sorted _ _
            (sortByKey_sorted GlobalRow.timestamp l0)]
  · rw [process_user_metrics] at hu ⊢
    by_cases he : rawu.isEmpty
    · rw [if_pos he]
      rfl
    · rw [if_neg he] at hu ⊢
      cases hm : optMapList coerceUserRow rawu with
      | none => rw [hm] at hu; simp at hu
      | some l0 =>
        show process_user_metrics_typed (sortByKey UserRow.date l0) =
          sortByKey UserRow.date l0
        have hfix : ∀ g ∈ sortByKey UserRow.date l0,
            coerceTypedUserRow g = g := by
          intro g hgmem
          have hgl0 : g ∈ l0 := (sortByKey_mem UserRow.date l0 g).mp hgmem
          rcases optMapList_mem coerceUserRow rawu l0 hm g hgl0 with ⟨a, _, ha⟩
          exact coerceTypedUserRow_fix a g ha
        rw [process_user_metrics_typed]
        by_cases he2 : (sortByKey UserRow.date l0).isEmpty
        · rw [if_pos he2]
        · rw [if_neg he2, mapFixId _ _ hfix, sortByKey_of_sorted _ _
            (sortByKey_sorted UserRow.date l0)]

/-- C8 witness: two-row global and user tables, each delivered in
descending order, are fixed points of the typed re-run once processed. -/
theorem C8_normalize_idempotent_witness :
    process_daily_metrics_typed ((process_daily_metrics
      [{ timestamp := "200", num := [("volume", "3.5")],
         hasFeeDecrease := false, hasFeeIncrease := false },
       { timestamp := "100", num := [("volume", "abc")],
         hasFeeDecrease := true, hasFeeIncrease := false }]).getD []) =
      (process_daily_metrics
        [{ timestamp := "200", num := [("volume", "3.5")],
           hasFeeDecrease := false, hasFeeIncrease := false },
         { timestamp := "100", num := [("volume", "abc")],
           hasFeeDecrease := true, hasFeeIncrease := false }]).getD [] ∧
    process_user_metrics_typed ((process_user_metrics
      [{ timestamp := "200", date := "2024-01-16", userAddress := "0xdead",
         userBalance := "5", num := [("feesPaid", "1.25")] },
       { timestamp := "100", date := "2024-01-15", userAddress := "0xdead",
         userBalance := "5", num := [("feesPaid", "oops")] }]).getD []) =
      (process_user_metrics
        [{ timestamp := "200", date := "2024-01-16", userAddress := "0xdead",
           userBalance := "5", num := [("feesPaid", "1.25")] },
         { timestamp := "100", date := "2024-01-15", userAddress := "0xdead",
           userBalance := "5", num := [("feesPaid", "oops")] }]).getD [] :=
  C8_normalize_idempotent
    [{ timestamp := "200", num := [("volume", "3.5")],
       hasFeeDecrease := false, hasFeeIncrease := false },
     { timestamp := "100", num := [("volume", "abc")],
       hasFeeDecrease := true, hasFeeIncrease := false }]
    [{ timestamp := "200", date := "2024-01-16", userAddress := "0xdead",
       userBalance := "5", num := [("feesPaid", "1.25")] },
     { timestamp := "100", date := "2024-01-15", userAddress := "0xdead",
       userBalance := "5", num := [("feesPaid", "oops")] }]
    (by decide) (by decide)
